import Mathlib

/-!
Verification development for the query-resolution bot (`src/bot.py`).

The Python source is shallowly embedded: pure fragments become Lean
functions over `String`, `List`, and `ℚ` (wall-clock times and vector
distances are modelled as rationals); fallible external calls (Google
Sheets fetches, embedding models, the Groq completion service) become
`Option`-valued parameters; stateful objects (`ResponseCache`, the
per-user rate-limit deques, the global collection pointers) become
explicit state records threaded through the functions.
-/

namespace Bot

/-! ## Python character and string primitives

Russian text flows through `str.lower`, `str.upper` and `str.strip`, so
we model those for the ASCII and Cyrillic ranges that the tables of the source use. -/

/-- Python `str.lower` on one character, for ASCII letters and the
Cyrillic block used by the source (`А`..`Я` and `Ё`). -/
def pyToLower (c : Char) : Char :=
  if 'A' ≤ c ∧ c ≤ 'Z' then Char.ofNat (c.toNat + 32)
  else if 'А' ≤ c ∧ c ≤ 'Я' then Char.ofNat (c.toNat + 32)
  else if c = 'Ё' then 'ё'
  else c

/-- Python `str.upper` on one character, for the same ranges. -/
def pyToUpper (c : Char) : Char :=
  if 'a' ≤ c ∧ c ≤ 'z' then Char.ofNat (c.toNat - 32)
  else if 'а' ≤ c ∧ c ≤ 'я' then Char.ofNat (c.toNat - 32)
  else if c = 'ё' then 'Ё'
  else c

/-- Python `str.lower`. -/
def pyLower (s : String) : String := String.mk (s.data.map pyToLower)

/-- Python `str.upper`. -/
def pyUpper (s : String) : String := String.mk (s.data.map pyToUpper)

/-- Whitespace characters matched by Python `\s` (ASCII part). -/
def pyIsSpace (c : Char) : Bool :=
  c = ' ' || c = '\t' || c = '\n' || c = '\r' || c = '\x0b' || c = '\x0c'

/-- Word characters for Python regex `\b` boundaries (`[0-9A-Za-z_]`
plus the Cyrillic letters occurring in the patterns of the source). -/
def pyIsWordChar (c : Char) : Bool :=
  ('0' ≤ c && c ≤ '9') || ('a' ≤ c && c ≤ 'z') || ('A' ≤ c && c ≤ 'Z') ||
  c = '_' || ('а' ≤ c && c ≤ 'я') || ('А' ≤ c && c ≤ 'Я') || c = 'ё' || c = 'Ё'

/-- Test whether `p` begins the list `s` (used for Python `startswith`
and substring search). -/
def beginsWith : List Char → List Char → Bool
  | [], _ => true
  | _ :: _, [] => false
  | p :: ps, c :: cs => p == c && beginsWith ps cs

/-- Python `needle in hay` for strings: substring containment. -/
def containsSub (needle : List Char) : List Char → Bool
  | [] => needle.isEmpty
  | s@(_ :: cs) => beginsWith needle s || containsSub needle cs

/-- Python `needle in hay` on `String`. -/
def pyIn (needle hay : String) : Bool := containsSub needle.data hay.data

/-- Python `s.startswith(p)` on `String`. -/
def pyStarts (s p : String) : Bool := beginsWith p.data s.data

/-- Trim whitespace on both ends of a character list. -/
def trimChars (l : List Char) : List Char :=
  ((l.dropWhile pyIsSpace).reverse.dropWhile pyIsSpace).reverse

/-- Python `str.strip()`. -/
def pyStrip (s : String) : String := String.mk (trimChars s.data)

/-- Python truthiness of an `Optional[str]`: `None` and `""` are falsy. -/
def pyTruthyO : Option String → Bool
  | none => false
  | some s => !(s == "")

/-! ## The mismatch guard (`CRITICAL_MISMATCHES`, `is_mismatch`) -/

/-- The `CRITICAL_MISMATCHES` table of `src/bot.py`: a category term
that may occur in the question, mapped to answer terms that conflict
with it. -/
def CRITICAL_MISMATCHES : List (String × List String) :=
  [("касса", ["киоск", "КСО", "сканер", "принтер чеков", "терминал самообслуживания"]),
   ("киоск", ["касса", "онлайн-касса", "фискальный регистратор", "терминал оплаты"])]

/-- The mismatch guard `is_mismatch(question, answer)`: lower-case both
sides, and veto when the question names a category whose forbidden
terms appear in the answer. -/
def is_mismatch (question answer : String) : Bool :=
  CRITICAL_MISMATCHES.any fun cat =>
    pyIn (pyLower cat.1) (pyLower question) &&
    cat.2.any fun forbidden => pyIn (pyLower forbidden) (pyLower answer)

/-! ## Query normalisation (`preprocess`)

`preprocess` lower-cases, removes the listed greetings, rewrites the
synonym table, strips characters outside `[а-яa-z0-9\s]`, and collapses
whitespace.  The greeting and synonym substitutions are `re.sub` with a
`\b`-bounded literal pattern; every pattern in the source starts and
ends with a word character, so the boundary test reduces to checking
the neighbouring characters. -/

/-- Strip `p` from the front of `s` if it begins it. -/
def stripPre : List Char → List Char → Option (List Char)
  | [], s => some s
  | _ :: _, [] => none
  | p :: ps, c :: cs => if p = c then stripPre ps cs else none

/-- Fuelled worker for `\b`-bounded literal substitution.  `prev` is the
character of the original string just before the current position
(`none` at the start); matching resumes after a replaced occurrence, as
`re.sub` does. -/
def substWBGo (pat rep : List Char) : Nat → Option Char → List Char → List Char
  | 0, _, s => s
  | _ + 1, _, [] => []
  | fuel + 1, prev, c :: cs =>
    let prevBoundary := match prev with
      | none => true
      | some p => !(pyIsWordChar p)
    match (if prevBoundary then stripPre pat (c :: cs) else none) with
    | some rest =>
      let nextBoundary := match rest with
        | [] => true
        | r :: _ => !(pyIsWordChar r)
      if nextBoundary then
        rep ++ substWBGo pat rep fuel (pat.getLast?.elim prev some) rest
      else
        c :: substWBGo pat rep fuel (some c) cs
    | none => c :: substWBGo pat rep fuel (some c) cs

/-- Python `re.sub(rf"\b{pat}\b", rep, s)` for the literal patterns of
`preprocess`. -/
def substWB (pat rep s : String) : String :=
  String.mk (substWBGo pat.data rep.data s.data.length none s.data)

/-- The greeting list removed by `preprocess`. -/
def greetings : List String :=
  ["здравствуйте", "привет", "добрый день", "добрый вечер",
   "доброе утро", "приветствую", "хай", "hello"]

/-- The active synonym table of `preprocess` (commented-out rows of the
source are omitted, as they are in the running code). -/
def synonyms : List (String × String) :=
  [("кд", "касса доставки"),
   ("кр", "касса ресторана"),
   ("фискальный регистратор", "фн"),
   ("онлайн-касса", "касса")]

/-- Keep characters of the class `[а-яa-z0-9\s]`; every other character
becomes a space (the `re.sub(r'[^а-яa-z0-9\s]', ' ', text)` step; note
`ё` is outside `а-я` and is therefore replaced). -/
def keepChar (c : Char) : Char :=
  if ('а' ≤ c && c ≤ 'я') || ('a' ≤ c && c ≤ 'z') || ('0' ≤ c && c ≤ '9') ||
      pyIsSpace c then c else ' '

/-- Collapse each maximal whitespace run to a single `' '`
(the `re.sub(r'\s+', ' ', text)` step). -/
def collapseWS : Bool → List Char → List Char
  | _, [] => []
  | prevSpace, c :: cs =>
    if pyIsSpace c then
      if prevSpace then collapseWS true cs
      else ' ' :: collapseWS true cs
    else c :: collapseWS false cs

/-- Model of `preprocess(text)` of `src/bot.py`: the normalised form used as the
cache key and the keyword-lookup key. -/
def preprocess (text : String) : String :=
  let t1 := pyLower text
  let t2 := greetings.foldl (fun s g => substWB g "" s) t1
  let t3 := synonyms.foldl (fun s p => substWB p.1 p.2 s) t2
  let t4 := t3.data.map keepChar
  String.mk (trimChars (collapseWS false t4))

/-! ## Association-list model of Python `dict` -/

/-- Python `d.get(k)` / `k in d` on an insertion-ordered dict. -/
def dictGet (l : List (String × α)) (k : String) : Option α :=
  (l.find? fun p => p.1 == k).map Prod.snd

/-- Python `d[k] = v`: overwrite in place, else append. -/
def dictInsert (l : List (String × α)) (k : String) (v : α) : List (String × α) :=
  if l.any (fun p => p.1 == k) then
    l.map fun p => if p.1 == k then (k, v) else p
  else l ++ [(k, v)]

/-- Python `d.pop(k, None)`. -/
def dictRemove (l : List (String × α)) (k : String) : List (String × α) :=
  l.filter fun p => !(p.1 == k)

/-- Stable insertion into a sorted list: `x` goes after every `y` with
`le y x`. -/
def insertLe (le : α → α → Bool) (x : α) : List α → List α
  | [] => [x]
  | y :: ys => if le y x then y :: insertLe le x ys else x :: y :: ys

/-- Stable sort (models Python `sorted` / list `.sort`). -/
def sortByStable (le : α → α → Bool) (l : List α) : List α :=
  l.foldl (fun acc x => insertLe le x acc) []

/-! ## `ResponseCache` (answer cache with TTL) -/

/-- State of the `ResponseCache` class: a value dict and a timestamp
dict, hit and miss counters, a size cap, and a TTL in seconds. -/
structure ResponseCache where
  maxsize : Nat := 2000
  ttl : ℚ := 7200
  cache : List (String × String) := []
  timestamps : List (String × ℚ) := []
  hits : Nat := 0
  misses : Nat := 0
deriving DecidableEq, Repr

/-- Model of `ResponseCache._remove(key)`. -/
def ResponseCache.remove (c : ResponseCache) (key : String) : ResponseCache :=
  { c with cache := dictRemove c.cache key, timestamps := dictRemove c.timestamps key }

/-- Model of `ResponseCache.get(key)` at wall-clock time `now`: an entry whose
age strictly exceeds the TTL is purged and reported as a miss; the
returned pair is the looked-up value and the updated cache state. -/
def ResponseCache.get (c : ResponseCache) (key : String) (now : ℚ) :
    Option String × ResponseCache :=
  let expired := match dictGet c.timestamps key with
    | some ts => decide (now - ts > c.ttl)
    | none => false
  if expired then
    (none, { c.remove key with misses := c.misses + 1 })
  else
    match dictGet c.cache key with
    | some v => (some v, { c with hits := c.hits + 1 })
    | none => (none, { c with misses := c.misses + 1 })

/-- Model of `ResponseCache._cleanup()`: drop expired entries, then, if still at
capacity, evict the oldest quarter of the entries by timestamp. -/
def ResponseCache.cleanup (c : ResponseCache) (now : ℚ) : ResponseCache :=
  let expired := (c.timestamps.filter fun p => decide (now - p.2 > c.ttl)).map Prod.fst
  let c1 := expired.foldl ResponseCache.remove c
  if c1.cache.length ≥ c1.maxsize then
    let victims :=
      ((sortByStable (fun p q => decide (p.2 ≤ q.2)) c1.timestamps).take
        (c1.maxsize / 4)).map Prod.fst
    victims.foldl ResponseCache.remove c1
  else c1

/-- Model of `ResponseCache.put(key, value)` at time `now`. -/
def ResponseCache.put (c : ResponseCache) (key value : String) (now : ℚ) :
    ResponseCache :=
  let c1 := if c.cache.length ≥ c.maxsize then c.cleanup now else c
  { c1 with cache := dictInsert c1.cache key value,
            timestamps := dictInsert c1.timestamps key now }

/-! ## Rate limiting (`is_rate_limited`) -/

/-- Constant `RATE_LIMIT` of the source. -/
def RATE_LIMIT : Nat := 10

/-- Constant `RATE_WINDOW` of the source, in seconds. -/
def RATE_WINDOW : ℚ := 60

/-- Model of `is_rate_limited(user_id)` acting on the timestamp deque of one user at
time `now`: pop expired timestamps from the front, reject without
recording when the deque is full, otherwise record `now` and admit.
Returns the limited flag and the updated deque. -/
def is_rate_limited (now : ℚ) (times : List ℚ) : Bool × List ℚ :=
  let pruned := times.dropWhile fun t => decide (t < now - RATE_WINDOW)
  if RATE_LIMIT ≤ pruned.length then (true, pruned)
  else (false, pruned ++ [now])

/-- Run a sequence of admission checks against the deque of one user,
collecting the limited flag of each call and the final deque. -/
def rlRunFlags : List ℚ → List ℚ → List Bool × List ℚ
  | [], d => ([], d)
  | n :: ns, d =>
    let r := is_rate_limited n d
    let rest := rlRunFlags ns r.2
    (r.1 :: rest.1, rest.2)

/-! ## Generative fallback acceptance (`fallback_groq`)

The Groq completion itself is external; the modelled input is the
completion text the service returned (`none` when the call raised or
timed out, in which case the `except` branch yields `None`). -/

/-- Model of `fallback_groq(question)` response filtering: strip the completion,
then reject the empty answer, answers starting (case-insensitively)
with the abstention markers, and answers shorter than 10 characters. -/
def fallback_groq (completion : Option String) : Option String :=
  match completion with
  | none => none
  | some content =>
    let answer := pyStrip content
    if answer == "" || pyStarts (pyUpper answer) "НЕТ ДАННЫХ" ||
        pyStarts (pyLower answer) "не знаю" || answer.length < 10 then
      none
    else
      some answer

/-! ## Knowledge collections and vector search

A Chroma collection holds, per knowledge pair, the preprocessed key
(metadata field `query`), the raw answer (metadata field `answer`) and
the embedding of the key.  Embedding models and the distance metric are
external: they enter as function parameters, with `Option` capturing an
embedding failure. -/

/-- One stored knowledge entry (ids and raw documents are irrelevant to
the claims and omitted). -/
structure Entry where
  query : String
  answer : String
  embedding : List ℚ
deriving DecidableEq, Repr

/-- Chroma `collection.query`: all entries scored by the metric,
sorted ascending by distance, truncated to `n` results. -/
def chromaQuery (dist : List ℚ → List ℚ → ℚ) (entries : List Entry)
    (emb : List ℚ) (n : Nat) : List (ℚ × String) :=
  (sortByStable (fun p q => decide (p.1 ≤ q.1))
    (entries.map fun e => (dist emb e.embedding, e.answer))).take n

/-- Model of `search_in_collection`: no candidates when the collection is absent
or empty or the embedder raises; otherwise the closest of 15 neighbours
is returned when it beats the threshold.  The distance defaults to 1.0
on a miss, mirroring the source. -/
def search_in_collection (coll : Option (List Entry))
    (embedOf : String → Option (List ℚ)) (dist : List ℚ → List ℚ → ℚ)
    (query : String) (threshold : ℚ) : Option String × ℚ :=
  match coll with
  | none => (none, 1)
  | some entries =>
    if entries.length = 0 then (none, 1)
    else
      match embedOf query with
      | none => (none, 1)
      | some emb =>
        match chromaQuery dist entries emb 15 with
        | [] => (none, 1)
        | (d, a) :: _ => if d < threshold then (some a, d) else (none, 1)

/-- Environment of the resolution pipeline: the two served collections
(the globals `collection_general` / `collection_technical`), the two
embedding models and distance metrics, the Google Sheets ranges used by
the keyword fallback (`none` when the fetch fails), the raw Groq
fallback completion, the vector threshold, and the cache-key hash. -/
structure Env where
  collG : Option (List Entry)
  collT : Option (List Entry)
  embG : String → Option (List ℚ)
  embT : String → Option (List ℚ)
  distG : List ℚ → List ℚ → ℚ
  distT : List ℚ → List ℚ → ℚ
  sheetG : Option (List (List String))
  sheetT : Option (List (List String))
  groqResp : Option String
  threshold : ℚ
  hashFn : String → String

/-- Model of `parallel_vector_search(query)`: collect the below-threshold,
truthy-answer candidate of each nonempty collection, order them by
distance (general first on ties, matching task order under a stable
sort), and return the best, or `(None, "none", 1.0)` when there is
none. -/
def parallel_vector_search (env : Env) (query : String) (threshold : ℚ) :
    Option String × String × ℚ :=
  let candG : List (String × String × ℚ) :=
    match env.collG with
    | none => []
    | some entries =>
      if entries.length = 0 then []
      else
        let r := search_in_collection env.collG env.embG env.distG query threshold
        match r.1 with
        | some a => if a != "" && decide (r.2 < threshold) then [(a, "vector_general", r.2)] else []
        | none => []
  let candT : List (String × String × ℚ) :=
    match env.collT with
    | none => []
    | some entries =>
      if entries.length = 0 then []
      else
        let r := search_in_collection env.collT env.embT env.distT query threshold
        match r.1 with
        | some a => if a != "" && decide (r.2 < threshold) then [(a, "vector_technical", r.2)] else []
        | none => []
  match sortByStable (fun p q => decide (p.2.2 ≤ q.2.2)) (candG ++ candT) with
  | [] => (none, "none", 1)
  | (a, src, d) :: _ => (some a, src, d)

/-! ## Keyword search (`optimized_keyword_search`) -/

/-- The per-collection metadata phase of the keyword search:
`collection.get(where={"query": {"$eq": clean}})`, returning the first
answer of the first matching entry when it is truthy. -/
def search_in_metadata (coll : Option (List Entry)) (clean : String) :
    Option String :=
  match coll with
  | none => none
  | some entries =>
    match entries.find? (fun e => e.query == clean) with
    | some e => if e.answer != "" then some e.answer else none
    | none => none

/-- The Google Sheets row test of the keyword search: a row with at
least two cells matches when its stripped, lower-cased keyword contains
the query or vice versa; the stripped answer is returned. -/
def rowMatch (clean : String) : List String → Option String
  | k :: a :: _ =>
    let keyword := pyLower (pyStrip k)
    let answer := pyStrip a
    if pyIn keyword clean || pyIn clean keyword then some answer else none
  | _ => none

/-- Model of `optimized_keyword_search(clean_text)`: exact metadata match in
General then Technical; on a miss, scan the General rows followed by
the Technical rows for a substring match (a failed fetch contributes no
rows). -/
def optimized_keyword_search (env : Env) (clean : String) : Option String :=
  match search_in_metadata env.collG clean with
  | some a => some a
  | none =>
    match search_in_metadata env.collT clean with
    | some a => some a
    | none =>
      let all_rows := (env.sheetG.getD []) ++ (env.sheetT.getD [])
      all_rows.findSome? (rowMatch clean)

/-! ## The staged resolver (`optimized_robust_search`) -/

/-- Stage 4 of the resolver: the Groq fallback, and the
`(None, "error", 1.0)` result when it too yields nothing truthy. -/
def robustGroq (env : Env) : Option String × String × ℚ :=
  match fallback_groq env.groqResp with
  | some g => if g != "" then (some g, "groq_fallback", 1) else (none, "error", 1)
  | none => (none, "error", 1)

/-- Stages 3 and 4 of the resolver: parallel vector search guarded by
the distance threshold and the mismatch guard applied to `raw_text`,
falling through to the Groq fallback. -/
def robustTail (env : Env) (raw_text clean_text : String) :
    Option String × String × ℚ :=
  let v := parallel_vector_search env clean_text env.threshold
  match v.1 with
  | some answer =>
    if answer != "" && decide (v.2.2 < env.threshold) then
      if !is_mismatch raw_text answer then (some answer, v.2.1, v.2.2)
      else robustGroq env
    else robustGroq env
  | none => robustGroq env

/-- Model of `optimized_robust_search(query, raw_text)`: response cache, then
keyword search, then the vector and fallback stages of `robustTail`.
The answer of each stage must be truthy to terminate the pipeline. -/
def optimized_robust_search (env : Env) (cache : ResponseCache) (now : ℚ)
    (query raw_text : String) : Option String × String × ℚ :=
  let clean_text := preprocess query
  let cache_key := env.hashFn clean_text
  let cached_answer := (cache.get cache_key now).1
  if pyTruthyO cached_answer then (cached_answer, "cached", 0)
  else
    match optimized_keyword_search env clean_text with
    | some k =>
      if k != "" then (some k, "keyword", 0)
      else robustTail env raw_text clean_text
    | none => robustTail env raw_text clean_text

/-! ## The knowledge-base rebuild (`update_vector_db`)

The body of `update_vector_db` runs under `collection_lock`.  Its shape
is: fetch both sheet ranges, delete the two served Chroma collections,
create fresh empty ones (immediately rebinding the served globals),
then for each category filter the rows, batch-encode the keys and add
the entries.  Any exception is caught at the end of the body, leaving
the globals exactly as they were at the failure point.  Fetches and the
two batch encoders are external and enter as `Option`-valued inputs. -/

/-- The two served collection globals. -/
structure DB where
  collG : Option (List Entry)
  collT : Option (List Entry)
deriving DecidableEq, Repr

/-- Row key: first cell, stripped. -/
def rowKeyStr : List String → String
  | k :: _ => pyStrip k
  | [] => ""

/-- Row answer: second cell, stripped. -/
def rowAnsStr : List String → String
  | _ :: a :: _ => pyStrip a
  | _ => ""

/-- Row filter of the rebuild: `len(row) >= 2 and row[0].strip()`. -/
def validRow (r : List String) : Bool :=
  decide (2 ≤ r.length) && (rowKeyStr r != "")

/-- Build the entries added for one category: metadata `query` is the
preprocessed key, `answer` the stripped answer, paired with the batch
embeddings. -/
def mkEntries (keys answers : List String) (embs : List (List ℚ)) : List Entry :=
  (keys.zip (answers.zip embs)).map fun p => ⟨preprocess p.1, p.2.1, p.2.2⟩

/-- Process one category during the rebuild: with no rows or no valid
rows the fresh collection stays empty; otherwise the batch encoder runs
and its failure (`none`) models the raised exception. -/
def catStep (rows : List (List String))
    (enc : List String → Option (List (List ℚ))) : Option (List Entry) :=
  if rows.isEmpty then some []
  else
    let valid := rows.filter validRow
    if valid.isEmpty then some []
    else
      match enc (valid.map rowKeyStr) with
      | none => none
      | some embs => some (mkEntries (valid.map rowKeyStr) (valid.map rowAnsStr) embs)

/-- Model of `update_vector_db`: the served globals after the rebuild body, and
whether the `except` branch ran.  A fetch failure happens before the
old collections are deleted; an encoding failure happens after both
fresh empty collections have replaced them. -/
def update_vector_db (db : DB) (fetchG fetchT : Option (List (List String)))
    (encG encT : List String → Option (List (List ℚ))) : DB × Bool :=
  match fetchG with
  | none => (db, true)
  | some general_rows =>
    match fetchT with
    | none => (db, true)
    | some technical_rows =>
      match catStep general_rows encG with
      | none => (⟨some [], some []⟩, true)
      | some gEntries =>
        match catStep technical_rows encT with
        | none => (⟨some gEntries, some []⟩, true)
        | some tEntries => (⟨some gEntries, some tEntries⟩, false)

/-! ## `collection_lock` contention

Two concurrent invocations of `update_vector_db` contend for the
`asyncio.Lock` named `collection_lock`.  The semantics of the lock: an
`acquire` on a free lock succeeds immediately; on a held lock the task
is appended to a FIFO wait queue; `release` hands the lock to the first
waiter if any.  Each task runs its rebuild body in the critical
section. -/

/-- Lifecycle of one rebuild invocation. -/
inductive Phase where
  | idle
  | waiting
  | critical
  | done
deriving DecidableEq, Repr

/-- State of two rebuild tasks contending for `collection_lock`:
task ids in the wait queue are `false` for task 1 and `true` for
task 2. -/
structure LockSys where
  locked : Bool
  wq : List Bool
  p1 : Phase
  p2 : Phase
deriving DecidableEq, Repr

/-- Interleaving steps of the two rebuild tasks under
`collection_lock`. -/
inductive LStep : LockSys → LockSys → Prop where
  | acquire1 (s : LockSys) : s.p1 = .idle → s.locked = false →
      LStep s { s with p1 := .critical, locked := true }
  | acquire2 (s : LockSys) : s.p2 = .idle → s.locked = false →
      LStep s { s with p2 := .critical, locked := true }
  | wait1 (s : LockSys) : s.p1 = .idle → s.locked = true →
      LStep s { s with p1 := .waiting, wq := s.wq ++ [false] }
  | wait2 (s : LockSys) : s.p2 = .idle → s.locked = true →
      LStep s { s with p2 := .waiting, wq := s.wq ++ [true] }
  | finishFree1 (s : LockSys) : s.p1 = .critical → s.wq = [] →
      LStep s { s with p1 := .done, locked := false }
  | finishFree2 (s : LockSys) : s.p2 = .critical → s.wq = [] →
      LStep s { s with p2 := .done, locked := false }
  | finishGrant1 (s : LockSys) (rest : List Bool) : s.p1 = .critical →
      s.wq = true :: rest → s.p2 = .waiting →
      LStep s { s with p1 := .done, p2 := .critical, wq := rest }
  | finishGrant2 (s : LockSys) (rest : List Bool) : s.p2 = .critical →
      s.wq = false :: rest → s.p1 = .waiting →
      LStep s { s with p2 := .done, p1 := .critical, wq := rest }

/-- Initial state: lock free, both rebuild requests pending. -/
def lockInit : LockSys := ⟨false, [], .idle, .idle⟩

/-- States reachable by interleaving the two tasks. -/
def LReachable (s : LockSys) : Prop := Relation.ReflTransGen LStep lockInit s

/-! ## The message handler (`handle_message`) up to the cache stage

The admission prefix of the handler is modelled exactly: the group/private
access gates, the pause check, the rate limiter, the message-text
gates, the `total` counter, and the response-cache probe.  Everything
after a cache miss (alarm, typing indicator, the search pipeline, the
Groq improvement pass, sending, and the final cache write) is a
continuation parameter, so a theorem quantifying over the continuation
speaks about every possible rest of the handler. -/

/-- Telegram chat type. -/
inductive ChatType where
  | groupChat
  | supergroupChat
  | privateChat
  | channelChat
deriving DecidableEq, Repr

/-- Mutable bot state touched by the handler prefix. -/
structure GState where
  user_requests : List ℚ
  response_cache : ResponseCache
  stats_total : Nat
  stats_cached : Nat
  stats_groq : Nat
  stats_errors : Nat
deriving DecidableEq, Repr

/-- Terminal outcomes of the handler; `replied`, `noAnswer` and
`failed` are produced only by the continuation. -/
inductive Outcome where
  | ignored
  | skipped
  | rateLimited
  | cacheHit (answer : String)
  | replied (answer : String)
  | noAnswer
  | failed
deriving DecidableEq, Repr

/-- Per-message inputs of the handler. -/
structure MsgCtx where
  user_id : Int
  chat_type : ChatType
  admin_ids : List Int
  adminlist : List Int
  paused : Bool
  msgText : String
  now : ℚ
  hashFn : String → String

/-- The handler after the rate limiter: the text gates, the `total`
counter, the cache probe, and on a miss the continuation, which
receives the raw text, the normalised text and the state. -/
def handleAfterRate (ctx : MsgCtx) (s : GState)
    (rest : String → String → GState → Outcome × GState) : Outcome × GState :=
  let raw_text := pyStrip ctx.msgText
  if raw_text == "" || pyStarts raw_text "/" || decide (1500 < raw_text.length) then
    (.ignored, s)
  else
    let s1 := { s with stats_total := s.stats_total + 1 }
    let clean_text := preprocess raw_text
    let cache_key := ctx.hashFn clean_text
    let probe := s1.response_cache.get cache_key ctx.now
    let s2 := { s1 with response_cache := probe.2 }
    match probe.1 with
    | some a => (.cacheHit a, { s2 with stats_cached := s2.stats_cached + 1 })
    | none => rest raw_text clean_text s2

/-- Model of `handle_message` up to the cache stage: the group gate (special
admins are ignored in groups), the private gate (only `ADMIN_IDS` are
served in private), the pause check (skips unless the user is in
`ADMIN_IDS`), the rate limiter (skipped for `ADMIN_IDS`), then
`handleAfterRate`. -/
def handle_message (ctx : MsgCtx) (s : GState)
    (rest : String → String → GState → Outcome × GState) : Outcome × GState :=
  let isGroup := ctx.chat_type = .groupChat ∨ ctx.chat_type = .supergroupChat
  if isGroup ∧ ctx.user_id ∈ ctx.adminlist then (.ignored, s)
  else if ctx.chat_type = .privateChat ∧ ctx.user_id ∉ ctx.admin_ids then
    (.ignored, s)
  else if ctx.paused ∧ ctx.user_id ∉ ctx.admin_ids then (.skipped, s)
  else if ctx.user_id ∉ ctx.admin_ids then
    let r := is_rate_limited ctx.now s.user_requests
    if r.1 then (.rateLimited, { s with user_requests := r.2 })
    else handleAfterRate ctx { s with user_requests := r.2 } rest
  else handleAfterRate ctx s rest

/-! ## Helper lemmas -/

/-- Looking up a key just removed from a dict yields nothing. -/
lemma dictGet_dictRemove_self (l : List (String × α)) (k : String) :
    dictGet (dictRemove l k) k = none := by
  unfold dictGet dictRemove
  rw [List.find?_eq_none.mpr]
  · rfl
  · intro x hx
    have := List.mem_filter.mp hx
    simpa using this.2

/-- Inserting a key makes its lookup return the inserted value. -/
lemma dictGet_dictInsert_self (l : List (String × α)) (k : String) (v : α) :
    dictGet (dictInsert l k v) k = some v := by
  unfold dictInsert
  split
  case isTrue h =>
    unfold dictGet
    induction l with
    | nil => simp at h
    | cons p ps ih =>
      by_cases hp : p.1 = k
      · simp [List.find?_cons, hp]
      · have hk : (p.1 == k) = false := by simpa [beq_eq_false_iff_ne]
        simp only [List.any_cons, hk, Bool.false_or] at h
        simp only [List.map_cons, hk, Bool.false_eq_true, if_false]
        rw [List.find?_cons_of_neg _ (by simpa using hp)]
        exact ih h
  case isFalse h =>
    unfold dictGet
    have hfalse : l.any (fun p => p.1 == k) = false := Bool.eq_false_iff.mpr h
    rw [List.find?_append, List.find?_eq_none.mpr, Option.none_or]
    · simp [List.find?_cons]
    · intro x hx
      exact (List.any_eq_false.mp hfalse) x hx

/-- Elements surviving the deque prune are at least the cutoff, provided
the deque is sorted. -/
lemma mem_dropWhile_lt_ge {l : List ℚ} {c : ℚ}
    (hs : List.Sorted (· ≤ ·) l) :
    ∀ x ∈ l.dropWhile (fun t => decide (t < c)), c ≤ x := by
  induction l with
  | nil => intro x hx; simp [List.dropWhile] at hx
  | cons a l ih =>
    intro x hx
    rw [List.dropWhile_cons] at hx
    split at hx
    · exact ih hs.of_cons x hx
    · next hlt =>
      have ha : c ≤ a := le_of_not_lt (by simpa using hlt)
      rcases List.mem_cons.mp hx with rfl | hx
      · exact ha
      · exact ha.trans (List.rel_of_sorted_cons hs x hx)

/-- A list none of whose elements satisfy the predicate is untouched by
`dropWhile`. -/
lemma dropWhile_eq_self_of_all_neg {l : List α} {p : α → Bool}
    (h : ∀ x ∈ l, p x = false) : l.dropWhile p = l := by
  cases l with
  | nil => rfl
  | cons a l =>
    rw [List.dropWhile_cons, h a (List.mem_cons_self a l)]
    simp

/-! ## C8: cache TTL expiry on read -/

/-- Claim C8.  For every cache entry inserted at time `t`, a read at any
time later than `t + TTL` treats the entry as absent (returns a miss)
and physically removes it from both the value dict and the timestamp
dict during that read; moreover `put` records exactly the insertion
time that this expiry test consults. -/
theorem C8_cache_ttl_expiry :
    (∀ (c : ResponseCache) (key : String) (t now : ℚ),
      dictGet c.timestamps key = some t → t + c.ttl < now →
      (c.get key now).1 = none ∧
      dictGet (c.get key now).2.cache key = none ∧
      dictGet (c.get key now).2.timestamps key = none) ∧
    (∀ (c : ResponseCache) (key value : String) (t : ℚ),
      dictGet (c.put key value t).timestamps key = some t) := by
  constructor
  · intro c key t now hts hlt
    have hexp : decide (now - t > c.ttl) = true := by
      rw [decide_eq_true_iff]
      linarith
    refine ⟨?_, ?_, ?_⟩ <;>
      simp [ResponseCache.get, ResponseCache.remove, hts, hexp,
        dictGet_dictRemove_self]
  · intro c key value t
    unfold ResponseCache.put
    exact dictGet_dictInsert_self _ _ _

/-- Witness for C8: an entry stored at time 0 in a TTL-7200 cache is
reported absent and purged by a read at time 7201. -/
theorem C8_cache_ttl_expiry_witness :
    ((ResponseCache.mk 2000 7200 [("k", "v")] [("k", 0)] 0 0).get "k" 7201).1 = none ∧
    dictGet ((ResponseCache.mk 2000 7200 [("k", "v")] [("k", 0)] 0 0).get "k" 7201).2.cache "k" = none ∧
    dictGet ((ResponseCache.mk 2000 7200 [("k", "v")] [("k", 0)] 0 0).get "k" 7201).2.timestamps "k" = none :=
  C8_cache_ttl_expiry.1 (ResponseCache.mk 2000 7200 [("k", "v")] [("k", 0)] 0 0)
    "k" 0 7201 (by decide) (by norm_num)

/-! ## C6: generative-fallback acceptance -/

/-- Claim C6.  A generative-fallback completion is accepted exactly when
its stripped text is non-empty, does not begin (case-insensitively)
with an abstention marker, and meets the minimum length of 10
characters; otherwise — and when the call itself failed — the fallback
yields no answer, and a resolver that reaches the fallback stage with
no accepted answer ends in the unresolved outcome. -/
theorem C6_fallback_acceptance :
    (∀ content : String,
      (fallback_groq (some content) = some (pyStrip content) ↔
        pyStrip content ≠ "" ∧
        pyStarts (pyUpper (pyStrip content)) "НЕТ ДАННЫХ" = false ∧
        pyStarts (pyLower (pyStrip content)) "не знаю" = false ∧
        10 ≤ (pyStrip content).length) ∧
      (fallback_groq (some content) = some (pyStrip content) ∨
        fallback_groq (some content) = none)) ∧
    fallback_groq none = none ∧
    (∀ (env : Env) (cache : ResponseCache) (now : ℚ) (query raw_text : String),
      pyTruthyO ((cache.get (env.hashFn (preprocess query)) now).1) = false →
      optimized_keyword_search env (preprocess query) = none →
      (parallel_vector_search env (preprocess query) env.threshold).1 = none →
      fallback_groq env.groqResp = none →
      optimized_robust_search env cache now query raw_text = (none, "error", 1)) := by
  refine ⟨?_, rfl, ?_⟩
  · intro content
    have hred : fallback_groq (some content) =
        (if (pyStrip content == "" ||
              pyStarts (pyUpper (pyStrip content)) "НЕТ ДАННЫХ" ||
              pyStarts (pyLower (pyStrip content)) "не знаю" ||
              decide ((pyStrip content).length < 10)) = true then none
         else some (pyStrip content)) := rfl
    rw [hred]
    split
    case isTrue hc =>
      simp only [Bool.or_eq_true, beq_iff_eq, decide_eq_true_eq] at hc
      refine ⟨⟨fun habs => absurd habs (by simp), ?_⟩, Or.inr rfl⟩
      rintro ⟨h1, h2, h3, h4⟩
      rcases hc with ((hc | hc) | hc) | hc
      · exact absurd hc h1
      · rw [hc] at h2; exact absurd h2 (by simp)
      · rw [hc] at h3; exact absurd h3 (by simp)
      · omega
    case isFalse hc =>
      simp only [Bool.or_eq_true, beq_iff_eq, decide_eq_true_eq, not_or] at hc
      obtain ⟨⟨⟨h1, h2⟩, h3⟩, h4⟩ := hc
      exact ⟨⟨fun _ => ⟨h1, by simpa using h2, by simpa using h3, by omega⟩,
        fun _ => rfl⟩, Or.inl rfl⟩
  · intro env cache now query raw_text hcache hkw hvec hgroq
    simp only [optimized_robust_search, hcache, Bool.false_eq_true, if_false, hkw,
      robustTail, hvec, robustGroq, hgroq]

/-- Witness for C6: a substantive completion is accepted verbatim, a
10-character completion meets the length bar, and a resolver whose
stages all miss returns the unresolved outcome. -/
theorem C6_fallback_acceptance_witness :
    fallback_groq (some "Проверьте кабель питания") = some "Проверьте кабель питания" ∧
    fallback_groq (some "0123456789") = some "0123456789" ∧
    optimized_robust_search
      (Env.mk none none (fun _ => none) (fun _ => none) (fun _ _ => 1)
        (fun _ _ => 1) none none none (65/100) (fun _ => "h"))
      (ResponseCache.mk 2000 7200 [] [] 0 0) 0 "касса" "касса" = (none, "error", 1) := by
  refine ⟨?_, ?_, ?_⟩
  · exact ((C6_fallback_acceptance.1 "Проверьте кабель питания").1).mpr
      (by refine ⟨by decide, by decide, by decide, by decide⟩)
  · exact ((C6_fallback_acceptance.1 "0123456789").1).mpr
      (by refine ⟨by decide, by decide, by decide, by decide⟩)
  · exact C6_fallback_acceptance.2.2
      (Env.mk none none (fun _ => none) (fun _ => none) (fun _ _ => 1)
        (fun _ _ => 1) none none none (65/100) (fun _ => "h"))
      (ResponseCache.mk 2000 7200 [] [] 0 0) 0 "касса" "касса"
      (by decide) (by decide) (by decide) (by decide)

/-! ## C7: sliding-window rate limiting -/

/-- Splitting a run of admission checks at an append. -/
lemma rlRunFlags_append (ts1 ts2 d : List ℚ) :
    rlRunFlags (ts1 ++ ts2) d =
      ((rlRunFlags ts1 d).1 ++ (rlRunFlags ts2 (rlRunFlags ts1 d).2).1,
        (rlRunFlags ts2 (rlRunFlags ts1 d).2).2) := by
  induction ts1 generalizing d with
  | nil => simp [rlRunFlags]
  | cons n ns ih => simp [rlRunFlags, ih]

/-- A full deque makes the admission check reject without recording a
timestamp: the deque afterwards is exactly the pruned deque. -/
lemma is_rate_limited_full (now : ℚ) (l : List ℚ)
    (h : RATE_LIMIT ≤ (l.dropWhile fun t => decide (t < now - RATE_WINDOW)).length) :
    is_rate_limited now l = (true, l.dropWhile fun t => decide (t < now - RATE_WINDOW)) := by
  show (if RATE_LIMIT ≤ (l.dropWhile fun t => decide (t < now - RATE_WINDOW)).length
        then (true, l.dropWhile fun t => decide (t < now - RATE_WINDOW))
        else (false, (l.dropWhile fun t => decide (t < now - RATE_WINDOW)) ++ [now])) = _
  rw [if_pos h]

/-- A run of admission checks whose call times all lie within the
window of a common lower bound `a`, starting from a deque of recent
timestamps, admits every call and appends the call times in order. -/
lemma rl_allow_run (a : ℚ) (ts : List ℚ) : ∀ d : List ℚ,
    (∀ t ∈ d, a ≤ t) → (∀ n ∈ ts, a ≤ n ∧ n - RATE_WINDOW < a) →
    d.length + ts.length ≤ RATE_LIMIT →
    rlRunFlags ts d = (List.replicate ts.length false, d ++ ts) := by
  induction ts with
  | nil => intro d _ _ _; simp [rlRunFlags]
  | cons n ns ih =>
    intro d hd hts hlen
    have hna := hts n (List.mem_cons_self _ _)
    have hprune : (d.dropWhile fun t => decide (t < n - RATE_WINDOW)) = d :=
      dropWhile_eq_self_of_all_neg fun x hx => by
        rw [decide_eq_false_iff_not, not_lt]
        have := hd x hx
        linarith [hna.2]
    have hlen' : d.length + (ns.length + 1) ≤ RATE_LIMIT := by
      simpa using hlen
    have hnotfull :
        ¬ RATE_LIMIT ≤ (d.dropWhile fun t => decide (t < n - RATE_WINDOW)).length := by
      rw [hprune]
      simp only [RATE_LIMIT] at hlen' ⊢
      omega
    have hstep : is_rate_limited n d = (false, d ++ [n]) := by
      show (if RATE_LIMIT ≤ (d.dropWhile fun t => decide (t < n - RATE_WINDOW)).length
            then (true, d.dropWhile fun t => decide (t < n - RATE_WINDOW))
            else (false, (d.dropWhile fun t => decide (t < n - RATE_WINDOW)) ++ [n])) = _
      rw [if_neg hnotfull, hprune]
    have ihr := ih (d ++ [n])
      (by
        intro t ht
        rcases List.mem_append.mp ht with ht | ht
        · exact hd t ht
        · rw [List.mem_singleton.mp ht]; exact hna.1)
      (fun m hm => hts m (List.mem_cons_of_mem _ hm))
      (by simp only [List.length_append, List.length_singleton]; omega)
    simp [rlRunFlags, hstep, ihr, List.replicate_succ, List.append_assoc]

/-- Claim C7.  The admission check rejects whenever the pruned window
already holds `RATE_LIMIT` timestamps, recording nothing; a user
issuing 11 requests inside one 60-second window has the first 10
admitted and the 11th rejected with the deque still holding exactly the
10 admitted timestamps; and in the message handler a rejected
non-admin request terminates with the response cache, every counter and
the recorded timestamps untouched (only already-expired timestamps are
pruned), for every possible continuation of the handler — so no cache
write and no generative call happens. -/
theorem C7_rate_limit_rejection :
    (∀ (now : ℚ) (l : List ℚ),
      RATE_LIMIT ≤ (l.dropWhile fun t => decide (t < now - RATE_WINDOW)).length →
      is_rate_limited now l = (true, l.dropWhile fun t => decide (t < now - RATE_WINDOW))) ∧
    (∀ (a z : ℚ) (mid : List ℚ), mid.length = 9 →
      List.Sorted (· ≤ ·) (a :: (mid ++ [z])) → z < a + RATE_WINDOW →
      rlRunFlags (a :: (mid ++ [z])) [] =
        (List.replicate 10 false ++ [true], a :: mid)) ∧
    (∀ (ctx : MsgCtx) (s : GState)
        (rest : String → String → GState → Outcome × GState),
      ctx.user_id ∉ ctx.admin_ids →
      ¬((ctx.chat_type = .groupChat ∨ ctx.chat_type = .supergroupChat) ∧
          ctx.user_id ∈ ctx.adminlist) →
      ¬(ctx.chat_type = .privateChat ∧ ctx.user_id ∉ ctx.admin_ids) →
      ¬(ctx.paused = true ∧ ctx.user_id ∉ ctx.admin_ids) →
      RATE_LIMIT ≤
        (s.user_requests.dropWhile fun t => decide (t < ctx.now - RATE_WINDOW)).length →
      handle_message ctx s rest =
        (.rateLimited,
          { s with user_requests :=
              s.user_requests.dropWhile fun t => decide (t < ctx.now - RATE_WINDOW) })) := by
  refine ⟨is_rate_limited_full, ?_, ?_⟩
  · intro a z mid hlen hsort hwin
    have hcons : a :: (mid ++ [z]) = (a :: mid) ++ [z] := by simp
    have hmidz : ∀ b ∈ mid ++ [z], a ≤ b := List.rel_of_sorted_cons hsort
    have hmz : ∀ n ∈ mid, n ≤ z := by
      intro n hn
      have := (List.pairwise_append.mp hsort.of_cons).2.2
      exact this n hn z (List.mem_singleton_self z)
    have hrun : rlRunFlags (a :: mid) [] =
        (List.replicate 10 false, [] ++ (a :: mid)) := by
      have := rl_allow_run a (a :: mid) []
        (by intro t ht; simp at ht)
        (by
          intro n hn
          rcases List.mem_cons.mp hn with rfl | hn
          · constructor
            · exact le_refl n
            · show n - RATE_WINDOW < n
              rw [RATE_WINDOW]; linarith
          · refine ⟨hmidz n (List.mem_append_left _ hn), ?_⟩
            have h1 := hmz n hn
            show n - RATE_WINDOW < a
            rw [RATE_WINDOW] at hwin ⊢
            linarith)
        (by simp [hlen, RATE_LIMIT])
      simpa [hlen] using this
    have hdl : (a :: mid).length = 10 := by simp [hlen]
    have hlast : is_rate_limited z (a :: mid) = (true, a :: mid) := by
      have hpr : ((a :: mid).dropWhile fun t => decide (t < z - RATE_WINDOW)) = a :: mid :=
        dropWhile_eq_self_of_all_neg fun x hx => by
          rw [decide_eq_false_iff_not, not_lt]
          have hax : a ≤ x := by
            rcases List.mem_cons.mp hx with rfl | hx
            · exact le_refl x
            · exact hmidz x (List.mem_append_left _ hx)
          rw [RATE_WINDOW] at hwin ⊢
          linarith
      have := is_rate_limited_full z (a :: mid) (by rw [hpr, hdl]; exact le_rfl)
      rw [hpr] at this
      exact this
    rw [hcons, rlRunFlags_append, hrun]
    simp [rlRunFlags, hlast]
  · intro ctx s rest h1 h2 h3 h4 hfull
    have hstep := is_rate_limited_full ctx.now s.user_requests hfull
    simp only [handle_message, if_neg h2, if_neg h3, if_neg h4, if_pos h1, hstep]
    simp

/-- Witness for C7: a deque of 10 recent timestamps rejects a call at
time 100; the explicit 11-request run `[0, 1, …, 9, 10]` admits 10
requests and rejects the 11th; a concrete rate-limited group message is
answered with `rateLimited` and an otherwise unchanged state. -/
theorem C7_rate_limit_rejection_witness :
    is_rate_limited 100 [50, 60, 70, 80, 90, 91, 92, 93, 94, 95] =
      (true, [50, 60, 70, 80, 90, 91, 92, 93, 94, 95]) ∧
    rlRunFlags [0, 1, 2, 3, 4, 5, 6, 7, 8, 9, 10] [] =
      (List.replicate 10 false ++ [true], [0, 1, 2, 3, 4, 5, 6, 7, 8, 9]) ∧
    handle_message
      (MsgCtx.mk 8 .groupChat [7] [] false "вопрос по кассе" 100 (fun _ => "h"))
      (GState.mk [50, 60, 70, 80, 90, 91, 92, 93, 94, 95]
        (ResponseCache.mk 2000 7200 [] [] 0 0) 0 0 0 0)
      (fun _ _ s => (.noAnswer, s)) =
      (.rateLimited,
        GState.mk [50, 60, 70, 80, 90, 91, 92, 93, 94, 95]
          (ResponseCache.mk 2000 7200 [] [] 0 0) 0 0 0 0) := by
  refine ⟨?_, ?_, ?_⟩
  · have := C7_rate_limit_rejection.1 100
      [50, 60, 70, 80, 90, 91, 92, 93, 94, 95] (by with_unfolding_all decide)
    with_unfolding_all (exact this)
  · have := C7_rate_limit_rejection.2.1 0 10 [1, 2, 3, 4, 5, 6, 7, 8, 9]
      (by decide) (by with_unfolding_all decide) (by with_unfolding_all decide)
    with_unfolding_all (exact this)
  · have := C7_rate_limit_rejection.2.2
      (MsgCtx.mk 8 .groupChat [7] [] false "вопрос по кассе" 100 (fun _ => "h"))
      (GState.mk [50, 60, 70, 80, 90, 91, 92, 93, 94, 95]
        (ResponseCache.mk 2000 7200 [] [] 0 0) 0 0 0 0)
      (fun _ _ s => (.noAnswer, s))
      (by decide) (by decide) (by decide) (by decide)
      (by with_unfolding_all decide)
    with_unfolding_all (exact this)

/-! ## C10: the deque invariant of the rate limiter -/

/-- Every timestamp in the deque after an admission check was already
there or is the call time. -/
lemma mem_is_rate_limited (now : ℚ) (d : List ℚ) :
    ∀ t ∈ (is_rate_limited now d).2, t ∈ d ∨ t = now := by
  intro t ht
  have hred : (is_rate_limited now d).2 =
      (if RATE_LIMIT ≤ (d.dropWhile fun x => decide (x < now - RATE_WINDOW)).length
       then (true, d.dropWhile fun x => decide (x < now - RATE_WINDOW))
       else (false, (d.dropWhile fun x => decide (x < now - RATE_WINDOW)) ++ [now])).2 := rfl
  rw [hred] at ht
  split at ht
  · exact Or.inl ((List.dropWhile_sublist _).subset ht)
  · rcases List.mem_append.mp ht with ht | ht
    · exact Or.inl ((List.dropWhile_sublist _).subset ht)
    · exact Or.inr (List.mem_singleton.mp ht)

/-- One admission check preserves the deque invariant: starting from a
sorted deque within the cap holding no future timestamps, the resulting
deque is sorted, within the cap, and all its entries lie inside the
closed window ending at the call time. -/
lemma is_rate_limited_inv (now : ℚ) (d : List ℚ)
    (hs : List.Sorted (· ≤ ·) d) (hub : ∀ t ∈ d, t ≤ now)
    (hlen : d.length ≤ RATE_LIMIT) :
    List.Sorted (· ≤ ·) (is_rate_limited now d).2 ∧
    (is_rate_limited now d).2.length ≤ RATE_LIMIT ∧
    ∀ t ∈ (is_rate_limited now d).2, now - RATE_WINDOW ≤ t ∧ t ≤ now := by
  have hsub : (d.dropWhile fun x => decide (x < now - RATE_WINDOW)).Sublist d :=
    List.dropWhile_sublist _
  have hps : List.Sorted (· ≤ ·) (d.dropWhile fun x => decide (x < now - RATE_WINDOW)) :=
    List.Pairwise.sublist hsub hs
  have hmem : ∀ t ∈ (d.dropWhile fun x => decide (x < now - RATE_WINDOW)),
      now - RATE_WINDOW ≤ t ∧ t ≤ now :=
    fun t ht => ⟨mem_dropWhile_lt_ge hs t ht, hub t (hsub.subset ht)⟩
  have hplen := hsub.length_le
  have hred : is_rate_limited now d =
      (if RATE_LIMIT ≤ (d.dropWhile fun x => decide (x < now - RATE_WINDOW)).length
       then (true, d.dropWhile fun x => decide (x < now - RATE_WINDOW))
       else (false, (d.dropWhile fun x => decide (x < now - RATE_WINDOW)) ++ [now])) := rfl
  rw [hred]
  split
  case isTrue h => exact ⟨hps, hplen.trans hlen, hmem⟩
  case isFalse h =>
    refine ⟨?_, ?_, ?_⟩
    · rw [List.Sorted, List.pairwise_append]
      refine ⟨hps, List.pairwise_singleton _ _, ?_⟩
      intro a ha b hb
      rw [List.mem_singleton.mp hb]
      exact (hmem a ha).2
    · simp only [List.length_append, List.length_singleton]
      omega
    · intro t ht
      rcases List.mem_append.mp ht with ht | ht
      · exact hmem t ht
      · rw [List.mem_singleton.mp ht]
        refine ⟨?_, le_refl _⟩
        rw [RATE_WINDOW]
        linarith

/-- A run of admission checks at nondecreasing call times, starting
from a sorted deque below the cap whose entries precede every call,
keeps the deque sorted and below the cap, and adds only call times. -/
lemma rl_run_inv (ts : List ℚ) : ∀ d : List ℚ,
    List.Sorted (· ≤ ·) ts → List.Sorted (· ≤ ·) d → d.length ≤ RATE_LIMIT →
    (∀ n ∈ ts, ∀ t ∈ d, t ≤ n) →
    List.Sorted (· ≤ ·) (ts.foldl (fun d n => (is_rate_limited n d).2) d) ∧
    (ts.foldl (fun d n => (is_rate_limited n d).2) d).length ≤ RATE_LIMIT ∧
    ∀ t ∈ ts.foldl (fun d n => (is_rate_limited n d).2) d, t ∈ d ∨ t ∈ ts := by
  induction ts with
  | nil =>
    intro d _ hd hl _
    exact ⟨hd, hl, fun t ht => Or.inl ht⟩
  | cons n ns ih =>
    intro d hts hd hl hord
    have hub : ∀ t ∈ d, t ≤ n := fun t ht => hord n (List.mem_cons_self _ _) t ht
    have hstep := is_rate_limited_inv n d hd hub hl
    have hord' : ∀ m ∈ ns, ∀ t ∈ (is_rate_limited n d).2, t ≤ m := by
      intro m hm t ht
      have h1 := (hstep.2.2 t ht).2
      have h2 := List.rel_of_sorted_cons hts m hm
      linarith
    have hrec := ih (is_rate_limited n d).2 hts.of_cons hstep.1 hstep.2.1 hord'
    simp only [List.foldl_cons]
    refine ⟨hrec.1, hrec.2.1, ?_⟩
    intro t ht
    rcases hrec.2.2 t ht with ht | ht
    · rcases mem_is_rate_limited n d t ht with ht | ht
      · exact Or.inl ht
      · exact Or.inr (ht ▸ List.mem_cons_self _ _)
    · exact Or.inr (List.mem_cons_of_mem _ ht)

/-- Claim C10.  After every admission check of every nondecreasing
sequence of calls (the deque evolving from empty through
`is_rate_limited` at each call time), the per-user deque holds at most
`RATE_LIMIT` timestamps and only timestamps within the closed
60-second window ending at the last call. -/
theorem C10_deque_invariant :
    ∀ (pre : List ℚ) (now : ℚ),
      List.Sorted (· ≤ ·) (pre ++ [now]) →
      ((pre ++ [now]).foldl (fun d n => (is_rate_limited n d).2) []).length ≤ RATE_LIMIT ∧
      ∀ t ∈ (pre ++ [now]).foldl (fun d n => (is_rate_limited n d).2) [],
        now - RATE_WINDOW ≤ t ∧ t ≤ now := by
  intro pre now hsort
  rw [List.foldl_append]
  have hparts := List.pairwise_append.mp hsort
  have hpre : List.Sorted (· ≤ ·) pre := hparts.1
  have hub : ∀ p ∈ pre, p ≤ now :=
    fun p hp => hparts.2.2 p hp now (List.mem_singleton_self _)
  have hrun := rl_run_inv pre [] hpre (List.sorted_nil) (Nat.zero_le _)
    (by intro n _ t ht; simp at ht)
  have hub2 : ∀ t ∈ pre.foldl (fun d n => (is_rate_limited n d).2) [], t ≤ now := by
    intro t ht
    rcases hrun.2.2 t ht with ht | ht
    · simp at ht
    · exact hub t ht
  have hfin := is_rate_limited_inv now _ hrun.1 hub2 hrun.2.1
  simp only [List.foldl_cons, List.foldl_nil]
  exact ⟨hfin.2.1, hfin.2.2⟩

/-- Witness for C10: after the calls at times 1, 2, 3 the deque is
within the cap, and its entry 1 lies inside the window of the last
call. -/
theorem C10_deque_invariant_witness :
    (([1, 2] ++ [3]).foldl (fun d n => (is_rate_limited n d).2) []).length ≤ RATE_LIMIT ∧
    ((3 : ℚ) - RATE_WINDOW ≤ 1 ∧ (1 : ℚ) ≤ 3) :=
  ⟨(C10_deque_invariant [1, 2] 3 (by decide)).1,
    (C10_deque_invariant [1, 2] 3 (by decide)).2 1 (by with_unfolding_all decide)⟩

/-! ## C9: the pause gate -/

/-- Counterexample to C9 as stated: with the pause signal set, a
request from a user in `ADMIN_IDS` is not skipped — it runs the
pipeline, incrementing the `total` counter and probing the response
cache (one recorded miss). -/
theorem C9_pause_counterexample :
    (MsgCtx.mk 7 .privateChat [7] [] true "вопрос по кассе" 0 (fun _ => "h")).paused = true ∧
    (handle_message (MsgCtx.mk 7 .privateChat [7] [] true "вопрос по кассе" 0 (fun _ => "h"))
        (GState.mk [] (ResponseCache.mk 2000 7200 [] [] 0 0) 0 0 0 0)
        (fun _ _ s => (.noAnswer, s))).1 ≠ .skipped ∧
    (handle_message (MsgCtx.mk 7 .privateChat [7] [] true "вопрос по кассе" 0 (fun _ => "h"))
        (GState.mk [] (ResponseCache.mk 2000 7200 [] [] 0 0) 0 0 0 0)
        (fun _ _ s => (.noAnswer, s))).2.stats_total = 1 ∧
    (handle_message (MsgCtx.mk 7 .privateChat [7] [] true "вопрос по кассе" 0 (fun _ => "h"))
        (GState.mk [] (ResponseCache.mk 2000 7200 [] [] 0 0) 0 0 0 0)
        (fun _ _ s => (.noAnswer, s))).2.response_cache.misses = 1 := by
  with_unfolding_all decide

/-- Claim C9, amended.  The pause signal is checked before any pipeline
work: when it is set, a request from a user not in `ADMIN_IDS`
terminates with the state bit-for-bit unchanged — no cache read or
write, no counter update, no rate-limiter update — whatever the rest of
the handler would do; when additionally the chat-access gates do not
already drop the request, the outcome is precisely the pause skip.
Requests of `ADMIN_IDS` users proceed exactly as if the pause signal
were clear. -/
theorem C9_pause_gate_amended :
    (∀ (ctx : MsgCtx) (s : GState)
        (rest : String → String → GState → Outcome × GState),
      ctx.paused = true → ctx.user_id ∉ ctx.admin_ids →
      (handle_message ctx s rest).2 = s ∧
      ((handle_message ctx s rest).1 = .ignored ∨
        (handle_message ctx s rest).1 = .skipped)) ∧
    (∀ (ctx : MsgCtx) (s : GState)
        (rest : String → String → GState → Outcome × GState),
      ctx.paused = true → ctx.user_id ∉ ctx.admin_ids →
      ¬((ctx.chat_type = .groupChat ∨ ctx.chat_type = .supergroupChat) ∧
          ctx.user_id ∈ ctx.adminlist) →
      ctx.chat_type ≠ .privateChat →
      handle_message ctx s rest = (.skipped, s)) ∧
    (∀ (ctx : MsgCtx) (s : GState)
        (rest : String → String → GState → Outcome × GState),
      ctx.user_id ∈ ctx.admin_ids →
      handle_message { ctx with paused := true } s rest =
        handle_message { ctx with paused := false } s rest) := by
  refine ⟨?_, ?_, ?_⟩
  · intro ctx s rest hp hna
    by_cases h1 : (ctx.chat_type = .groupChat ∨ ctx.chat_type = .supergroupChat) ∧
        ctx.user_id ∈ ctx.adminlist
    · simp only [handle_message, if_pos h1]
      exact ⟨trivial, Or.inl trivial⟩
    · by_cases h2 : ctx.chat_type = .privateChat ∧ ctx.user_id ∉ ctx.admin_ids
      · simp only [handle_message, if_neg h1, if_pos h2]
        exact ⟨trivial, Or.inl trivial⟩
      · simp only [handle_message, if_neg h1, if_neg h2, if_pos (And.intro hp hna)]
        exact ⟨trivial, Or.inr trivial⟩
  · intro ctx s rest hp hna h1 h2
    have h2' : ¬(ctx.chat_type = .privateChat ∧ ctx.user_id ∉ ctx.admin_ids) :=
      fun h => h2 h.1
    simp only [handle_message, if_neg h1, if_neg h2', if_pos (And.intro hp hna)]
  · intro ctx s rest hadm
    simp [handle_message, handleAfterRate, hadm]

/-- Witness for C9 (amended): a paused group request of a plain user is
skipped with the state unchanged, and a paused private request of an
admin behaves exactly like the unpaused one. -/
theorem C9_pause_gate_amended_witness :
    handle_message (MsgCtx.mk 8 .groupChat [7] [] true "вопрос" 0 (fun _ => "h"))
      (GState.mk [] (ResponseCache.mk 2000 7200 [] [] 0 0) 0 0 0 0)
      (fun _ _ s => (.noAnswer, s)) =
      (.skipped, GState.mk [] (ResponseCache.mk 2000 7200 [] [] 0 0) 0 0 0 0) ∧
    handle_message (MsgCtx.mk 7 .privateChat [7] [] true "вопрос" 0 (fun _ => "h"))
      (GState.mk [] (ResponseCache.mk 2000 7200 [] [] 0 0) 0 0 0 0)
      (fun _ _ s => (.noAnswer, s)) =
    handle_message (MsgCtx.mk 7 .privateChat [7] [] false "вопрос" 0 (fun _ => "h"))
      (GState.mk [] (ResponseCache.mk 2000 7200 [] [] 0 0) 0 0 0 0)
      (fun _ _ s => (.noAnswer, s)) := by
  constructor
  · exact C9_pause_gate_amended.2.1
      (MsgCtx.mk 8 .groupChat [7] [] true "вопрос" 0 (fun _ => "h"))
      (GState.mk [] (ResponseCache.mk 2000 7200 [] [] 0 0) 0 0 0 0)
      (fun _ _ s => (.noAnswer, s)) rfl (by decide) (by decide) (by decide)
  · exact C9_pause_gate_amended.2.2
      (MsgCtx.mk 7 .privateChat [7] [] false "вопрос" 0 (fun _ => "h"))
      (GState.mk [] (ResponseCache.mk 2000 7200 [] [] 0 0) 0 0 0 0)
      (fun _ _ s => (.noAnswer, s)) (by decide)

/-! ## C3: the mismatch veto on vector results -/

/-- Any answer produced by the fallback stage is tagged
`"groq_fallback"`. -/
lemma robustGroq_src (env : Env) (a src : String) (d : ℚ)
    (h : robustGroq env = (some a, src, d)) : src = "groq_fallback" := by
  have hred : robustGroq env =
      (match fallback_groq env.groqResp with
       | some g => if g != "" then (some g, "groq_fallback", (1 : ℚ))
                   else (none, "error", 1)
       | none => (none, "error", 1)) := rfl
  rw [hred] at h
  split at h
  · split at h
    · simpa using (congrArg (fun p => p.2.1) h).symm
    · exact absurd (congrArg Prod.fst h) (by simp)
  · exact absurd (congrArg Prod.fst h) (by simp)

/-- Any answer the vector-plus-fallback tail returns under a vector
source tag has passed the mismatch guard against `raw_text`. -/
lemma robustTail_vector_guard (env : Env) (raw_text clean_text a src : String)
    (d : ℚ) (h : robustTail env raw_text clean_text = (some a, src, d))
    (hsrc : src = "vector_general" ∨ src = "vector_technical") :
    is_mismatch raw_text a = false := by
  have hred : robustTail env raw_text clean_text =
      (match (parallel_vector_search env clean_text env.threshold).1 with
       | some answer =>
         if answer != "" &&
             decide ((parallel_vector_search env clean_text env.threshold).2.2 <
               env.threshold) then
           if !is_mismatch raw_text answer then
             (some answer, (parallel_vector_search env clean_text env.threshold).2.1,
               (parallel_vector_search env clean_text env.threshold).2.2)
           else robustGroq env
         else robustGroq env
       | none => robustGroq env) := rfl
  rw [hred] at h
  split at h
  case h_1 answer hans =>
    split at h
    · split at h
      case isTrue hguard =>
        have ha : some answer = some a := congrArg Prod.fst h
        rw [Option.some_inj.mp ha] at hguard
        simpa using hguard
      case isFalse =>
        have := robustGroq_src env a src d h
        rcases hsrc with rfl | rfl <;> simp at this
    · have := robustGroq_src env a src d h
      rcases hsrc with rfl | rfl <;> simp at this
  case h_2 =>
    have := robustGroq_src env a src d h
    rcases hsrc with rfl | rfl <;> simp at this

/-- Claim C3.  Whatever the collections, distances and thresholds, an
answer that the resolver returns as a vector result (source
`"vector_general"` or `"vector_technical"`) never violates the
mismatch guard against the question: a candidate whose answer carries a
forbidden term of a category named in the question is vetoed and the
pipeline moves on instead. -/
theorem C3_mismatch_veto (env : Env) (cache : ResponseCache) (now : ℚ)
    (query raw_text a src : String) (d : ℚ)
    (h : optimized_robust_search env cache now query raw_text = (some a, src, d))
    (hsrc : src = "vector_general" ∨ src = "vector_technical") :
    is_mismatch raw_text a = false := by
  have hred : optimized_robust_search env cache now query raw_text =
      (if pyTruthyO ((cache.get (env.hashFn (preprocess query)) now).1) = true then
        ((cache.get (env.hashFn (preprocess query)) now).1, "cached", (0 : ℚ))
      else
        match optimized_keyword_search env (preprocess query) with
        | some k =>
          if k != "" then (some k, "keyword", (0 : ℚ))
          else robustTail env raw_text (preprocess query)
        | none => robustTail env raw_text (preprocess query)) := rfl
  rw [hred] at h
  split at h
  · have hs := congrArg (fun p => p.2.1) h
    rcases hsrc with rfl | rfl <;> simp at hs
  · split at h
    · split at h
      · have hs := congrArg (fun p => p.2.1) h
        rcases hsrc with rfl | rfl <;> simp at hs
      · exact robustTail_vector_guard env raw_text (preprocess query) a src d h hsrc
    · exact robustTail_vector_guard env raw_text (preprocess query) a src d h hsrc

/-- Witness for C3: a concrete resolution that does return a vector
result, whose answer the guard indeed clears. -/
theorem C3_mismatch_veto_witness :
    is_mismatch "как настроить оборудование" "ответ общий" = false :=
  C3_mismatch_veto
    (Env.mk (some [Entry.mk "к1" "ответ общий" [1]]) none (fun _ => some [1])
      (fun _ => none) (fun _ _ => 0) (fun _ _ => 1) none none none 1 (fun _ => "h"))
    (ResponseCache.mk 2000 7200 [] [] 0 0) 0
    "как настроить оборудование" "как настроить оборудование"
    "ответ общий" "vector_general" 0 (by decide) (Or.inl rfl)

/-! ## C2: what happens after a guard rejection -/

/-- Environment of the C2 scenario: the General hit is closest (distance
0) and names the conflicting category, the Technical hit is below
threshold (distance 1 of 2) and clean, the keyword stage has nothing,
and the generative service is down. -/
def c2env : Env :=
  Env.mk (some [Entry.mk "к1" "Перезагрузите киоск" [1]])
    (some [Entry.mk "к2" "Проверьте кабель питания" [1]])
    (fun _ => some [1]) (fun _ => some [1]) (fun _ _ => 0) (fun _ _ => 1)
    none none none 2 (fun _ => "h")

/-- Counterexample to C2 as stated: the globally-closest result (from
General, below threshold) is rejected by the guard, the Technical
collection holds a below-threshold result that passes the guard, and
yet the pipeline never returns it — it proceeds straight to the
generative fallback and, that failing, to the unresolved outcome. -/
theorem C2_other_collection_counterexample :
    is_mismatch "не работает касса" "Перезагрузите киоск" = true ∧
    is_mismatch "не работает касса" "Проверьте кабель питания" = false ∧
    parallel_vector_search c2env (preprocess "не работает касса") 2 =
      (some "Перезагрузите киоск", "vector_general", 0) ∧
    search_in_collection c2env.collT c2env.embT c2env.distT
      (preprocess "не работает касса") 2 = (some "Проверьте кабель питания", 1) ∧
    optimized_robust_search c2env (ResponseCache.mk 2000 7200 [] [] 0 0) 0
      "не работает касса" "не работает касса" = (none, "error", 1) := by
  decide

/-- Claim C2, amended.  When the single globally-closest vector result
is below threshold but rejected by the Mismatch Guard, the vector stage
is abandoned entirely: the below-threshold result of the other
collection is never consulted again, and the pipeline proceeds directly
to the generative-fallback stage. -/
theorem C2_guard_rejection_amended (env : Env) (cache : ResponseCache) (now : ℚ)
    (query raw_text a src : String) (d : ℚ)
    (h1 : pyTruthyO ((cache.get (env.hashFn (preprocess query)) now).1) = false)
    (h2 : optimized_keyword_search env (preprocess query) = none)
    (h3 : parallel_vector_search env (preprocess query) env.threshold = (some a, src, d))
    (h4 : (a != "") = true) (h5 : d < env.threshold)
    (h6 : is_mismatch raw_text a = true) :
    optimized_robust_search env cache now query raw_text = robustGroq env := by
  simp only [optimized_robust_search, h1, Bool.false_eq_true, if_false, h2,
    robustTail, h3, h4, h5, h6, decide_True, Bool.and_self, Bool.not_true,
    Bool.false_eq_true, if_false]
  simp

/-- Witness for C2 (amended): in the C2 scenario the output of the resolver
is exactly the output of the fallback stage. -/
theorem C2_guard_rejection_amended_witness :
    optimized_robust_search c2env (ResponseCache.mk 2000 7200 [] [] 0 0) 0
      "не работает касса" "не работает касса" = robustGroq c2env :=
  C2_guard_rejection_amended c2env (ResponseCache.mk 2000 7200 [] [] 0 0) 0
    "не работает касса" "не работает касса" "Перезагрузите киоск"
    "vector_general" 0 (by decide) (by decide) (by decide) (by decide)
    (by decide) (by decide)

/-! ## C4: keyword precedence over vector search -/

/-- A metadata keyword hit is never the empty string. -/
lemma search_in_metadata_ne (coll : Option (List Entry)) (clean a : String)
    (h : search_in_metadata coll clean = some a) : (a != "") = true := by
  unfold search_in_metadata at h
  split at h
  · exact absurd h (by simp)
  · split at h
    · split at h
      case isTrue hne => rw [← Option.some_inj.mp h]; exact hne
      case isFalse => exact absurd h (by simp)
    · exact absurd h (by simp)

/-- Claim C4.  On a cache miss, a query whose normalised form exactly
matches a stored key in the General metadata — or, failing that, in the
Technical metadata — resolves to the answer of that key with source
`"keyword"` and distance 0, whatever the embeddings of the collections,
distances, threshold and fallback would have produced: the keyword
stage runs strictly before any vector search. -/
theorem C4_keyword_precedence :
    (∀ (env : Env) (cache : ResponseCache) (now : ℚ) (query raw_text a : String),
      pyTruthyO ((cache.get (env.hashFn (preprocess query)) now).1) = false →
      search_in_metadata env.collG (preprocess query) = some a →
      optimized_robust_search env cache now query raw_text = (some a, "keyword", 0)) ∧
    (∀ (env : Env) (cache : ResponseCache) (now : ℚ) (query raw_text a : String),
      pyTruthyO ((cache.get (env.hashFn (preprocess query)) now).1) = false →
      search_in_metadata env.collG (preprocess query) = none →
      search_in_metadata env.collT (preprocess query) = some a →
      optimized_robust_search env cache now query raw_text = (some a, "keyword", 0)) := by
  constructor
  · intro env cache now query raw_text a h1 h2
    simp only [optimized_robust_search, h1, Bool.false_eq_true, if_false,
      optimized_keyword_search, h2, search_in_metadata_ne env.collG _ a h2, if_true]
  · intro env cache now query raw_text a h1 h2 h3
    simp only [optimized_robust_search, h1, Bool.false_eq_true, if_false,
      optimized_keyword_search, h2, h3, search_in_metadata_ne env.collT _ a h3, if_true]

/-- Witness for C4: an exact normalised-key match in General resolves
through the keyword stage, and likewise a Technical-only match. -/
theorem C4_keyword_precedence_witness :
    optimized_robust_search
      (Env.mk (some [Entry.mk "касса работает" "Всё хорошо" [1]]) none
        (fun _ => none) (fun _ => none) (fun _ _ => 1) (fun _ _ => 1)
        none none none 1 (fun _ => "h"))
      (ResponseCache.mk 2000 7200 [] [] 0 0) 0 "касса работает" "касса работает" =
      (some "Всё хорошо", "keyword", 0) ∧
    optimized_robust_search
      (Env.mk (some []) (some [Entry.mk "касса работает" "Ответ техники" [1]])
        (fun _ => none) (fun _ => none) (fun _ _ => 1) (fun _ _ => 1)
        none none none 1 (fun _ => "h"))
      (ResponseCache.mk 2000 7200 [] [] 0 0) 0 "касса работает" "касса работает" =
      (some "Ответ техники", "keyword", 0) := by
  constructor
  · exact C4_keyword_precedence.1
      (Env.mk (some [Entry.mk "касса работает" "Всё хорошо" [1]]) none
        (fun _ => none) (fun _ => none) (fun _ _ => 1) (fun _ _ => 1)
        none none none 1 (fun _ => "h"))
      (ResponseCache.mk 2000 7200 [] [] 0 0) 0 "касса работает" "касса работает"
      "Всё хорошо" (by decide) (by decide)
  · exact C4_keyword_precedence.2
      (Env.mk (some []) (some [Entry.mk "касса работает" "Ответ техники" [1]])
        (fun _ => none) (fun _ => none) (fun _ _ => 1) (fun _ _ => 1)
        none none none 1 (fun _ => "h"))
      (ResponseCache.mk 2000 7200 [] [] 0 0) 0 "касса работает" "касса работает"
      "Ответ техники" (by decide) (by decide) (by decide)

/-! ## C1: what a failed rebuild leaves behind -/

/-- Counterexample to C1 as stated: starting from a served General
collection with one entry, a rebuild whose fetches succeed but whose
General embedding computation fails leaves BOTH served collections
empty — the previously-served entries are destroyed, and every
subsequent resolution call sees collections with zero entries. -/
theorem C1_rebuild_failure_counterexample :
    update_vector_db (DB.mk (some [Entry.mk "q" "a" [1]]) (some []))
      (some [["к", "ответ"]]) (some []) (fun _ => none)
      (fun l => some (l.map fun _ => [1])) =
      (DB.mk (some []) (some []), true) ∧
    DB.mk (some [Entry.mk "q" "a" [1]]) (some []) ≠ DB.mk (some []) (some []) := by
  decide

/-- Claim C1, amended.  A failure while fetching either sheet range
aborts the rebuild before the served collections are touched, leaving
them exactly as they were (and reporting the error); but once both
fetches succeed the old collections are deleted and rebuilt in place,
so a failure while computing the General embeddings leaves both served
collections empty, and a failure while computing the Technical
embeddings leaves the freshly rebuilt General collection alongside an
empty Technical collection — previously-served entries are lost rather
than preserved. -/
theorem C1_rebuild_failure_amended :
    (∀ (db : DB) (fT : Option (List (List String)))
        (eG eT : List String → Option (List (List ℚ))),
      update_vector_db db none fT eG eT = (db, true)) ∧
    (∀ (db : DB) (g : List (List String))
        (eG eT : List String → Option (List (List ℚ))),
      update_vector_db db (some g) none eG eT = (db, true)) ∧
    (∀ (db : DB) (g t : List (List String))
        (eG eT : List String → Option (List (List ℚ))),
      catStep g eG = none →
      update_vector_db db (some g) (some t) eG eT =
        (DB.mk (some []) (some []), true)) ∧
    (∀ (db : DB) (g t : List (List String))
        (eG eT : List String → Option (List (List ℚ))) (gE : List Entry),
      catStep g eG = some gE → catStep t eT = none →
      update_vector_db db (some g) (some t) eG eT =
        (DB.mk (some gE) (some []), true)) := by
  refine ⟨fun db fT eG eT => rfl, fun db g eG eT => rfl, ?_, ?_⟩
  · intro db g t eG eT h
    simp only [update_vector_db, h]
  · intro db g t eG eT gE h1 h2
    simp only [update_vector_db, h1, h2]

/-- Witness for C1 (amended): concrete runs hitting each failure
point — both fetch failures, a General-encoder failure, and a
Technical-encoder failure after a successful General build. -/
theorem C1_rebuild_failure_amended_witness :
    update_vector_db (DB.mk (some [Entry.mk "q" "a" [1]]) none) none none
      (fun _ => none) (fun _ => none) =
      (DB.mk (some [Entry.mk "q" "a" [1]]) none, true) ∧
    update_vector_db (DB.mk (some [Entry.mk "q" "a" [1]]) none) (some []) none
      (fun _ => none) (fun _ => none) =
      (DB.mk (some [Entry.mk "q" "a" [1]]) none, true) ∧
    update_vector_db (DB.mk (some [Entry.mk "q" "a" [1]]) (some []))
      (some [["к", "ответ"]]) (some []) (fun _ => none) (fun _ => none) =
      (DB.mk (some []) (some []), true) ∧
    update_vector_db (DB.mk (some [Entry.mk "q" "a" [1]]) (some []))
      (some []) (some [["т", "ответ"]]) (fun _ => none) (fun _ => none) =
      (DB.mk (some []) (some []), true) := by
  refine ⟨?_, ?_, ?_, ?_⟩
  · exact C1_rebuild_failure_amended.1 (DB.mk (some [Entry.mk "q" "a" [1]]) none)
      none (fun _ => none) (fun _ => none)
  · exact C1_rebuild_failure_amended.2.1 (DB.mk (some [Entry.mk "q" "a" [1]]) none)
      [] (fun _ => none) (fun _ => none)
  · exact C1_rebuild_failure_amended.2.2.1
      (DB.mk (some [Entry.mk "q" "a" [1]]) (some [])) [["к", "ответ"]] []
      (fun _ => none) (fun _ => none) (by decide)
  · exact C1_rebuild_failure_amended.2.2.2
      (DB.mk (some [Entry.mk "q" "a" [1]]) (some [])) [] [["т", "ответ"]]
      (fun _ => none) (fun _ => none) [] (by decide) (by decide)

/-! ## C5: rebuild contention on `collection_lock` -/

/-- The inductive invariant of the lock system: the lock is held
whenever a task is in its critical section, and the two tasks are never
both critical. -/
def LInv (s : LockSys) : Prop :=
  (s.locked = false → s.p1 ≠ .critical ∧ s.p2 ≠ .critical) ∧
  ¬(s.p1 = .critical ∧ s.p2 = .critical)

/-- The initial state satisfies the invariant. -/
lemma LInv_init : LInv lockInit := by
  constructor
  · intro _
    exact ⟨by decide, by decide⟩
  · rintro ⟨h, _⟩
    exact absurd h (by decide)

/-- Every lock-system step preserves the invariant. -/
lemma LInv_step {s s' : LockSys} (h : LInv s) (hs : LStep s s') : LInv s' := by
  cases hs with
  | acquire1 h1 h2 =>
    refine ⟨fun hl => Bool.noConfusion hl, ?_⟩
    rintro ⟨_, hc2⟩
    exact (h.1 h2).2 hc2
  | acquire2 h1 h2 =>
    refine ⟨fun hl => Bool.noConfusion hl, ?_⟩
    rintro ⟨hc1, _⟩
    exact (h.1 h2).1 hc1
  | wait1 h1 h2 =>
    constructor
    · intro hl
      rw [show ({ s with p1 := Phase.waiting, wq := s.wq ++ [false] } : LockSys).locked
          = s.locked from rfl, h2] at hl
      exact Bool.noConfusion hl
    · rintro ⟨hc1, _⟩
      exact Phase.noConfusion hc1
  | wait2 h1 h2 =>
    constructor
    · intro hl
      rw [show ({ s with p2 := Phase.waiting, wq := s.wq ++ [true] } : LockSys).locked
          = s.locked from rfl, h2] at hl
      exact Bool.noConfusion hl
    · rintro ⟨_, hc2⟩
      exact Phase.noConfusion hc2
  | finishFree1 h1 h2 =>
    constructor
    · intro _
      exact ⟨fun hc => Phase.noConfusion hc, fun hc2 => h.2 ⟨h1, hc2⟩⟩
    · rintro ⟨hc1, _⟩
      exact Phase.noConfusion hc1
  | finishFree2 h1 h2 =>
    constructor
    · intro _
      exact ⟨fun hc1 => h.2 ⟨hc1, h1⟩, fun hc => Phase.noConfusion hc⟩
    · rintro ⟨_, hc2⟩
      exact Phase.noConfusion hc2
  | finishGrant1 rest h1 h2 h3 =>
    constructor
    · intro hl
      exact absurd h1 (h.1 hl).1
    · rintro ⟨hc1, _⟩
      exact Phase.noConfusion hc1
  | finishGrant2 rest h1 h2 h3 =>
    constructor
    · intro hl
      exact absurd h1 (h.1 hl).2
    · rintro ⟨_, hc2⟩
      exact Phase.noConfusion hc2

/-- Trace state: task 1 holds the lock and rebuilds. -/
def csA : LockSys := ⟨true, [], .critical, .idle⟩

/-- Trace state: task 2 arrived during the rebuild of task 1 and waits. -/
def csB : LockSys := ⟨true, [true], .critical, .waiting⟩

/-- Trace state: task 1 finished; the lock passed to task 2. -/
def csC : LockSys := ⟨true, [], .done, .critical⟩

/-- Trace state: both rebuild requests have executed. -/
def csD : LockSys := ⟨false, [], .done, .done⟩

/-- Counterexample to C5 as stated: a rebuild request arriving while
another rebuild is in flight (task 2 starts while task 1 is in its
critical section) is queued on `collection_lock` and runs to completion
afterwards — it is not rejected. -/
theorem C5_queued_not_rejected_counterexample :
    LStep lockInit csA ∧ LStep csA csB ∧ LStep csB csC ∧ LStep csC csD ∧
    csB.p1 = .critical ∧ csB.p2 = .waiting ∧ csC.p2 = .critical ∧ csD.p2 = .done := by
  refine ⟨?_, ?_, ?_, ?_, rfl, rfl, rfl, rfl⟩
  · exact LStep.acquire1 lockInit rfl rfl
  · exact LStep.wait2 csA rfl rfl
  · exact LStep.finishGrant1 csB [] rfl rfl rfl
  · exact LStep.finishFree2 csC rfl rfl

/-- Claim C5, amended.  At most one rebuild runs at a time — in every
state reachable by interleaving two rebuild requests under
`collection_lock`, the two bodies are never simultaneously in their
critical sections — but a request arriving while a rebuild is in flight
waits on the lock and runs afterwards: it is queued, not rejected. -/
theorem C5_mutual_exclusion_amended :
    (∀ s : LockSys, LReachable s → ¬(s.p1 = .critical ∧ s.p2 = .critical)) ∧
    (LStep lockInit csA ∧ LStep csA csB ∧ LStep csB csC ∧ LStep csC csD ∧
      csB.p2 = .waiting ∧ csD.p2 = .done) := by
  constructor
  · intro s hs
    have hinv : LInv s := by
      induction hs with
      | refl => exact LInv_init
      | tail _ hstep ih => exact LInv_step ih hstep
    exact hinv.2
  · exact ⟨LStep.acquire1 lockInit rfl rfl, LStep.wait2 csA rfl rfl,
      LStep.finishGrant1 csB [] rfl rfl rfl, LStep.finishFree2 csC rfl rfl,
      rfl, rfl⟩

/-- Witness for C5 (amended): mutual exclusion instantiated at the
reachable state `csB`, where task 1 is critical and task 2 waits. -/
theorem C5_mutual_exclusion_amended_witness :
    ¬(csB.p1 = .critical ∧ csB.p2 = .critical) :=
  C5_mutual_exclusion_amended.1 csB
    (Relation.ReflTransGen.tail
      (Relation.ReflTransGen.tail Relation.ReflTransGen.refl
        (LStep.acquire1 lockInit rfl rfl))
      (LStep.wait2 csA rfl rfl))

end Bot
